import Mathlib

/-!
Verification development for the zlib-accel execution-path dispatcher shim.

The configuration store (`src/config/config.h`, config source file), the
logging helpers (`src/logging.h`) and the public path enum
(`src/zlib_accel.h`) are embedded directly from the source.  Components of
the repository that are not available in source form (the `ConfigReader`
key-value parser, the `utils.h` format helpers, and the dispatcher /
path-selector / backend codecs described in the design document) are
modelled from the specification text; each such definition carries a doc
comment starting with `Modelled from the spec:`.
-/

namespace ZlibAccel

/-! ## Configuration store (src/config/config.h and its source file) -/

/-- The `ConfigOption` enumeration from `src/config/config.h` (without the
`CONFIG_MAX` sentinel, which only sizes the arrays). -/
inductive ConfigOption where
  | USE_QAT_COMPRESS
  | USE_QAT_UNCOMPRESS
  | USE_IAA_COMPRESS
  | USE_IAA_UNCOMPRESS
  | USE_ZLIB_COMPRESS
  | USE_ZLIB_UNCOMPRESS
  | IAA_COMPRESS_PERCENTAGE
  | IAA_UNCOMPRESS_PERCENTAGE
  | IAA_PREPEND_EMPTY_BLOCK
  | QAT_PERIODICAL_POLLING
  | QAT_COMPRESSION_LEVEL
  | LOG_LEVEL
  | LOG_STATS_SAMPLES
deriving DecidableEq, Fintype

/-- The `config_names` array from the config source file, transcribed entry
by entry in declaration order (each enum value indexes the array at its own
position). -/
def config_names : ConfigOption → String
  | .USE_QAT_COMPRESS => "use_qat_compress"
  | .USE_QAT_UNCOMPRESS => "use_qat_uncompress"
  | .USE_IAA_COMPRESS => "use_iaa_compress"
  | .USE_IAA_UNCOMPRESS => "use_iaa_uncompress"
  | .USE_ZLIB_COMPRESS => "use_zlib_compress"
  | .USE_ZLIB_UNCOMPRESS => "USE_ZLIB_UNCOMPRESS"
  | .IAA_COMPRESS_PERCENTAGE => "use_zlib_uncompress"
  | .IAA_UNCOMPRESS_PERCENTAGE => "iaa_compress_percentage"
  | .IAA_PREPEND_EMPTY_BLOCK => "iaa_prepend_empty_block"
  | .QAT_PERIODICAL_POLLING => "qat_periodical_polling"
  | .QAT_COMPRESSION_LEVEL => "qat_compression_level"
  | .LOG_LEVEL => "log_level"
  | .LOG_STATS_SAMPLES => "log_stats_samples"

/-- The documented key name of each option: the specification describes "a
file-backed key-value store with named options", one named key per option;
the documented key of an option is its enumeration name in lower case (as
the config source file uses for ten of the thirteen options). -/
def documented_config_names : ConfigOption → String
  | .USE_QAT_COMPRESS => "use_qat_compress"
  | .USE_QAT_UNCOMPRESS => "use_qat_uncompress"
  | .USE_IAA_COMPRESS => "use_iaa_compress"
  | .USE_IAA_UNCOMPRESS => "use_iaa_uncompress"
  | .USE_ZLIB_COMPRESS => "use_zlib_compress"
  | .USE_ZLIB_UNCOMPRESS => "use_zlib_uncompress"
  | .IAA_COMPRESS_PERCENTAGE => "iaa_compress_percentage"
  | .IAA_UNCOMPRESS_PERCENTAGE => "iaa_uncompress_percentage"
  | .IAA_PREPEND_EMPTY_BLOCK => "iaa_prepend_empty_block"
  | .QAT_PERIODICAL_POLLING => "qat_periodical_polling"
  | .QAT_COMPRESSION_LEVEL => "qat_compression_level"
  | .LOG_LEVEL => "log_level"
  | .LOG_STATS_SAMPLES => "log_stats_samples"

/-- Default values of `configs[CONFIG_MAX]`, from the initializer
`{1, 1, 0, 0, 1, 1, 50, 50, 0, 0, 1, 2, 1000}` in the config source file. -/
def defaultConfigs : ConfigOption → Nat
  | .USE_QAT_COMPRESS => 1
  | .USE_QAT_UNCOMPRESS => 1
  | .USE_IAA_COMPRESS => 0
  | .USE_IAA_UNCOMPRESS => 0
  | .USE_ZLIB_COMPRESS => 1
  | .USE_ZLIB_UNCOMPRESS => 1
  | .IAA_COMPRESS_PERCENTAGE => 50
  | .IAA_UNCOMPRESS_PERCENTAGE => 50
  | .IAA_PREPEND_EMPTY_BLOCK => 0
  | .QAT_PERIODICAL_POLLING => 0
  | .QAT_COMPRESSION_LEVEL => 1
  | .LOG_LEVEL => 2
  | .LOG_STATS_SAMPLES => 1000

/-- Conversion of a C `int` to `uint16_t`: reduction modulo `2^16`
(the backing store `configs` is a `uint16_t` array). -/
def u16 (v : Int) : Nat := (v % 65536).toNat

/-- The process-wide mutable configuration state: the `uint16_t
configs[CONFIG_MAX]` array together with the `std::string log_file`
global of the config source file. -/
structure ConfigState where
  configs : ConfigOption → Nat
  log_file : String

/-- The state at program start: the array initializer and `log_file = ""`. -/
def defaultConfigState : ConfigState :=
  { configs := defaultConfigs, log_file := "" }

/-- Assignment `configs[option] = value` with the `int → uint16_t`
truncation performed by the store. -/
def setCfg (cs : ConfigOption → Nat) (o : ConfigOption) (v : Int) :
    ConfigOption → Nat :=
  fun o' => if o' = o then u16 v else cs o'

/-- `SetConfig` from the config source file:
`void SetConfig(ConfigOption option, int value) { configs[option] = value; }`
— a bare store, no range validation. -/
def SetConfig (st : ConfigState) (o : ConfigOption) (v : Int) : ConfigState :=
  { st with configs := setCfg st.configs o v }

/-- `GetConfig` from the config source file:
`int GetConfig(ConfigOption option) { return configs[option]; }`. -/
def GetConfig (st : ConfigState) (o : ConfigOption) : Int := st.configs o

/-- The parsed content of a configuration file: integer-valued entries and
string-valued entries (the latter for `log_file`). -/
structure ConfigFile where
  ints : List (String × Int)
  strs : List (String × String)

/-- First value bound to `name` in an association list. -/
def lookupKey {α : Type} : List (String × α) → String → Option α
  | [], _ => none
  | (k, v) :: rest, name => if k = name then some v else lookupKey rest name

/-- The file system as seen by `LoadConfigFile`: which paths name an
existing regular file (with its parsed content) and which are symlinks. -/
structure FileSystem where
  file : String → Option ConfigFile
  symlinkAt : String → Bool

/-- Clamping of a read value into `[lo, hi]`. -/
def clampTo (lo hi v : Int) : Int := max lo (min hi v)

/-- Modelled from the spec: `ConfigReader::GetValue(name, value, max, min)`
(`config_reader.h` is not among the available sources).  The spec describes
the configuration surface as "a file-backed key-value store with named
options (… percentage integers 0–100, compression-level integer, …)": when
the named key is present in the file its value is read, clamped to the
documented `[min, max]` range, and stored into the by-reference `value`
argument; an absent key leaves `value` unchanged. -/
def getValue (f : ConfigFile) (name : String) (value : Int) (hi lo : Int) :
    Int :=
  match lookupKey f.ints name with
  | some v => clampTo lo hi v
  | none => value

/-- Modelled from the spec: the string overload
`ConfigReader::GetValue(name, str)` reads the string value of the named
key, leaving `str` unchanged when the key is absent. -/
def getValueStr (f : ConfigFile) (name : String) (s : String) : String :=
  match lookupKey f.strs name with
  | some v => v
  | none => s

/-- `LoadConfigFile` from the config source file.  It refuses missing
files and symlinks, then performs the thirteen `GetValue` calls in source
order — sharing the single local `int value` (initialised to `0`) and
passing `config_names[...]` as the key and the documented `(max, min)`
bounds — storing each result into the corresponding `configs` slot, and
finally reads key `"log_file"` into the `log_file` global.  The
`file_content.append(configReader.DumpValues())` out-parameter write is
not part of the configuration state and is not modelled. -/
def LoadConfigFile (fs : FileSystem) (path : String) (st : ConfigState) :
    Bool × ConfigState :=
  match fs.file path with
  | none => (false, st)
  | some f =>
    if fs.symlinkAt path then (false, st)
    else
      let v1 := getValue f (config_names .USE_QAT_COMPRESS) 0 1 0
      let c1 := setCfg st.configs .USE_QAT_COMPRESS v1
      let v2 := getValue f (config_names .USE_QAT_UNCOMPRESS) v1 1 0
      let c2 := setCfg c1 .USE_QAT_UNCOMPRESS v2
      let v3 := getValue f (config_names .USE_IAA_COMPRESS) v2 1 0
      let c3 := setCfg c2 .USE_IAA_COMPRESS v3
      let v4 := getValue f (config_names .USE_IAA_UNCOMPRESS) v3 1 0
      let c4 := setCfg c3 .USE_IAA_UNCOMPRESS v4
      let v5 := getValue f (config_names .USE_ZLIB_COMPRESS) v4 1 0
      let c5 := setCfg c4 .USE_ZLIB_COMPRESS v5
      let v6 := getValue f (config_names .USE_ZLIB_UNCOMPRESS) v5 1 0
      let c6 := setCfg c5 .USE_ZLIB_UNCOMPRESS v6
      let v7 := getValue f (config_names .IAA_COMPRESS_PERCENTAGE) v6 100 0
      let c7 := setCfg c6 .IAA_COMPRESS_PERCENTAGE v7
      let v8 := getValue f (config_names .IAA_UNCOMPRESS_PERCENTAGE) v7 100 0
      let c8 := setCfg c7 .IAA_UNCOMPRESS_PERCENTAGE v8
      let v9 := getValue f (config_names .IAA_PREPEND_EMPTY_BLOCK) v8 1 0
      let c9 := setCfg c8 .IAA_PREPEND_EMPTY_BLOCK v9
      let v10 := getValue f (config_names .QAT_PERIODICAL_POLLING) v9 1 0
      let c10 := setCfg c9 .QAT_PERIODICAL_POLLING v10
      let v11 := getValue f (config_names .QAT_COMPRESSION_LEVEL) v10 9 1
      let c11 := setCfg c10 .QAT_COMPRESSION_LEVEL v11
      let v12 := getValue f (config_names .LOG_LEVEL) v11 2 0
      let c12 := setCfg c11 .LOG_LEVEL v12
      let v13 := getValue f (config_names .LOG_STATS_SAMPLES) v12 1000 0
      let c13 := setCfg c12 .LOG_STATS_SAMPLES v13
      let lf := getValueStr f "log_file" st.log_file
      (true, { configs := c13, log_file := lf })

/-- A configuration file that stores every documented key, with the two
IAA percentage keys carrying the distinguishable values 30 and 75. -/
def percentageFile : ConfigFile :=
  { ints := [("use_qat_compress", 1), ("use_qat_uncompress", 1),
             ("use_iaa_compress", 1), ("use_iaa_uncompress", 1),
             ("use_zlib_compress", 1), ("use_zlib_uncompress", 1),
             ("iaa_compress_percentage", 30),
             ("iaa_uncompress_percentage", 75),
             ("iaa_prepend_empty_block", 0), ("qat_periodical_polling", 0),
             ("qat_compression_level", 5), ("log_level", 1),
             ("log_stats_samples", 500)],
    strs := [] }

/-- A file system holding `percentageFile` at the default config path. -/
def percentageFs : FileSystem :=
  { file := fun p => if p = "/etc/zlib-accel.conf" then some percentageFile
                     else none,
    symlinkAt := fun _ => false }

/-- An empty file system: no path names an existing file. -/
def emptyFs : FileSystem :=
  { file := fun _ => none, symlinkAt := fun _ => false }

/-! ## Logging (src/logging.h, DEBUG_LOG build) -/

/-- `enum class LogLevel { LOG_NONE = 0, LOG_INFO = 1, LOG_ERROR = 2 }`
from `src/logging.h`. -/
inductive LogLevel where
  | LOG_NONE
  | LOG_INFO
  | LOG_ERROR
deriving DecidableEq

/-- The numeric value of a `LogLevel`, as produced by
`static_cast<uint32_t>(level)`. -/
def LogLevel.toNat : LogLevel → Nat
  | .LOG_NONE => 0
  | .LOG_INFO => 1
  | .LOG_ERROR => 2

/-- `Log` from `src/logging.h` (DEBUG_LOG build), reduced to its observable
log emission: it returns early when
`static_cast<uint32_t>(level) < configs[LOG_LEVEL]`, then switches on the
level — `LOG_ERROR` writes the prefix `"Error: "`, `LOG_INFO` writes
`"Info: "`, and `LOG_NONE` returns before writing anything.  The result is
the emitted prefix, or `none` when nothing is written to the stream. -/
def Log (level : LogLevel) (cfgLogLevel : Nat) : Option String :=
  if level.toNat < cfgLogLevel then none
  else
    match level with
    | .LOG_ERROR => some "Error: "
    | .LOG_INFO => some "Info: "
    | .LOG_NONE => none

/-- The wrapper formats of a deflate stream (`utils.h`). -/
inductive CompressedFormat where
  | DEFLATE
  | ZLIB
  | GZIP
deriving DecidableEq

/-- Modelled from the spec: `GetCompressedFormat` lives in `utils.h`, which
is not among the available sources.  The spec says the header offset
"depends on whether a zlib/gzip wrapper is present, determined from the
configured window-bits/format the stream was opened with": negative
window-bits mean a raw deflate stream (no wrapper), values up to 15 a
zlib wrapper, larger values a gzip wrapper. -/
def GetCompressedFormat (windowBits : Int) : CompressedFormat :=
  if windowBits < 0 then .DEFLATE
  else if windowBits ≤ 15 then .ZLIB
  else .GZIP

/-- Modelled from the spec: `GetHeaderLength` (`utils.h`, not among the
available sources) — the wrapper header occupies 0 bytes for a raw deflate
stream, 2 bytes for the zlib wrapper and 10 bytes for the gzip wrapper, so
the first deflate block header byte sits at that offset. -/
def GetHeaderLength : CompressedFormat → Nat
  | .DEFLATE => 0
  | .ZLIB => 2
  | .GZIP => 10

/-- `PrintDeflateBlockHeader` from `src/logging.h` (DEBUG_LOG build).  It
returns early when `static_cast<uint32_t>(level) < configs[LOG_LEVEL]`;
otherwise, if `len >= header_length + 1`, it calls `Log(level, ...)` with
`bfinal = data[header_length] & 0b00000001` and
`btype = (data[header_length] & 0b00000110) >> 1`.  The function only
reads `data`; the result pairs the (unmodified) buffer with the logged
`(bfinal, btype)` pair, `none` when nothing is written (the inner `Log`
writes nothing for `LOG_NONE`). -/
def PrintDeflateBlockHeader (level : LogLevel) (cfgLogLevel : Nat)
    (data : List Nat) (len : Nat) (windowBits : Int) :
    List Nat × Option (Nat × Nat) :=
  if level.toNat < cfgLogLevel then (data, none)
  else
    let format := GetCompressedFormat windowBits
    let headerLength := GetHeaderLength format
    if headerLength + 1 ≤ len then
      match level with
      | .LOG_NONE => (data, none)
      | _ =>
        (data, some (data.getD headerLength 0 &&& 1,
                     (data.getD headerLength 0 &&& 6) >>> 1))
    else (data, none)

/-! ## Execution-path dispatcher (modelled from the spec)

The dispatcher, path selector and stream registry described in the design
document are not among the available sources; only their public surface
(`src/zlib_accel.h`) is.  The definitions below model them from the
specification text (sections 4.1 and 4.3). -/

/-- `enum ExecutionPath { UNDEFINED, ZLIB, QAT, IAA }` from
`src/zlib_accel.h`. -/
inductive ExecutionPath where
  | UNDEFINED
  | ZLIB
  | QAT
  | IAA
deriving DecidableEq

/-- The two directions of a stream (compress = deflate,
uncompress = inflate). -/
inductive Direction where
  | compress
  | uncompress
deriving DecidableEq

/-- Modelled from the spec: the Configuration Snapshot (section 3) — "an
immutable read of the Config Store taken at path-selection time: enable
flags for each (backend, direction) pair, percentage weights for
IAA-vs-software splitting per direction". -/
structure ConfigSnapshot where
  qatEnabled : Direction → Bool
  iaaEnabled : Direction → Bool
  zlibEnabled : Direction → Bool
  iaaPercentage : Direction → Nat

/-- Modelled from the spec: the Path Selector (section 4.1),
`select(direction, config_snapshot, random_draw ∈ [0,1)) -> Path`, first
matching rule wins: QAT if enabled; else with IAA enabled the draw is
compared against the percentage threshold (draws below it select IAA, the
remainder Zlib); else Zlib if enabled; else Undefined. -/
def select (d : Direction) (cfg : ConfigSnapshot) (draw : ℚ) :
    ExecutionPath :=
  if cfg.qatEnabled d then .QAT
  else if cfg.iaaEnabled d then
    if draw < (cfg.iaaPercentage d : ℚ) / 100 then .IAA else .ZLIB
  else if cfg.zlibEnabled d then .ZLIB
  else .UNDEFINED

/-- Backend adapter step status (section 2):
{OK, STREAM_END, NEED_MORE_OUTPUT, ERROR}. -/
inductive StepStatus where
  | OK
  | STREAM_END
  | NEED_MORE_OUTPUT
  | ERROR
deriving DecidableEq

/-- The caller-visible status vocabulary of one dispatcher call
(sections 4.3.5 and 7): partial progress, terminal success, request for
more output space, the configuration error of an undefined path, and a
terminal error. -/
inductive CallStatus where
  | Ok
  | StreamEnd
  | NeedMoreOutput
  | ConfigError
  | Err
deriving DecidableEq

/-- Modelled from the spec: the outcome of one backend `step` call,
`step(handle, input, output) -> {consumed, produced, status}`
(section 2).  Backends are external; an outcome is an arbitrary value of
this type. -/
structure BackendStep where
  consumed : Nat
  produced : List Nat
  status : StepStatus
deriving DecidableEq

/-- Modelled from the spec: the Execution Path Record (section 3) —
`direction` (immutable), `chosen_path`, `fallback_occurred`, and the
monotonically increasing byte counters.  The opaque `backend_handle` and
the diagnostics-only `first_block_seen` field are not represented. -/
structure Record where
  direction : Direction
  chosenPath : ExecutionPath
  fallbackOccurred : Bool
  bytesIn : Nat
  bytesOut : Nat
deriving DecidableEq

/-- The per-stream dispatcher state: the registry record (absent before
the first processing call) and all output bytes produced so far. -/
structure StreamState where
  record : Option Record
  output : List Nat
deriving DecidableEq

/-- The state of a freshly initialised stream: no record, no output. -/
def initState : StreamState := { record := none, output := [] }

/-- The record created at the first processing call (section 4.3.1): the
path selection runs once and the counters start at zero. -/
def initRecord (d : Direction) (cfg : ConfigSnapshot) (draw : ℚ) : Record :=
  { direction := d, chosenPath := select d cfg draw,
    fallbackOccurred := false, bytesIn := 0, bytesOut := 0 }

/-- The hardware paths (QAT and IAA), the ones the fallback transition can
leave (section 4.3.6). -/
def isHardware : ExecutionPath → Bool
  | .QAT => true
  | .IAA => true
  | _ => false

/-- Modelled from the spec: the status translation of section 4.3.5 — OK →
partial progress, STREAM_END → terminal success, NEED_MORE_OUTPUT → caller
must supply more output space, ERROR → handled by the fallback step. -/
def mapStatus : StepStatus → CallStatus
  | .OK => .Ok
  | .STREAM_END => .StreamEnd
  | .NEED_MORE_OUTPUT => .NeedMoreOutput
  | .ERROR => .Err

/-- The result of one dispatcher call: the caller-visible status, the
number of input bytes consumed by the call, and the stream state after
the call. -/
structure CallResult where
  status : CallStatus
  consumed : Nat
  state : StreamState
deriving DecidableEq

/-- Modelled from the spec: one dispatcher call,
`process(identity, direction, input_buffer, output_buffer) -> Status`
(section 4.3).  `bound` is the outcome the backend bound to the record
returns for this call and `sw` the outcome the replacement software
backend returns when a fallback replay happens.  Steps: (1) resolve or
create the record, running path selection on creation; (2) with
`chosen_path = Undefined` return a configuration error immediately, no
bytes consumed and no record stored; (4–5) otherwise run the bound
backend's step (a backend consumes at most the input it is given) and
translate its status; (6) on a hardware ERROR without prior fallback, set
`fallback_occurred`, rebind to Zlib and replay the software step against
the input from the byte offset the hardware attempt consumed, retaining
the bytes already produced; a software ERROR is terminal; (7) update the
byte counters.  The IAA priming-block submission (4.3.3) concerns only the
backend's framing and is not represented. -/
def processCall (cfg : ConfigSnapshot) (draw : ℚ) (d : Direction)
    (st : StreamState) (input : List Nat) (bound sw : BackendStep) :
    CallResult :=
  let r0 := st.record.getD (initRecord d cfg draw)
  if r0.chosenPath = ExecutionPath.UNDEFINED then
    { status := .ConfigError, consumed := 0, state := st }
  else
    let c := min bound.consumed input.length
    if bound.status = StepStatus.ERROR then
      if isHardware r0.chosenPath && !r0.fallbackOccurred then
        let replayInput := input.drop c
        let c2 := min sw.consumed replayInput.length
        let r1 : Record :=
          { r0 with chosenPath := .ZLIB, fallbackOccurred := true,
                    bytesIn := r0.bytesIn + c + c2,
                    bytesOut := r0.bytesOut + bound.produced.length
                               + sw.produced.length }
        { status := if sw.status = StepStatus.ERROR then .Err
                    else mapStatus sw.status,
          consumed := c + c2,
          state := { record := some r1,
                     output := st.output ++ bound.produced ++ sw.produced } }
      else
        let r1 : Record :=
          { r0 with bytesIn := r0.bytesIn + c,
                    bytesOut := r0.bytesOut + bound.produced.length }
        { status := .Err, consumed := c,
          state := { record := some r1,
                     output := st.output ++ bound.produced } }
    else
      let r1 : Record :=
        { r0 with bytesIn := r0.bytesIn + c,
                  bytesOut := r0.bytesOut + bound.produced.length }
      { status := mapStatus bound.status, consumed := c,
        state := { record := some r1,
                   output := st.output ++ bound.produced } }

/-- The caller-supplied data of one processing call: the input chunk and
the (external) backend outcomes for this call. -/
structure CallInput where
  input : List Nat
  bound : BackendStep
  sw : BackendStep

/-- The stream state after one processing call. -/
def stepState (cfg : ConfigSnapshot) (draw : ℚ) (d : Direction)
    (st : StreamState) (ci : CallInput) : StreamState :=
  (processCall cfg draw d st ci.input ci.bound ci.sw).state

/-- The stream state after a sequence of processing calls.  The draw is
fixed per stream (section 4.1: "independent per stream, not per call"). -/
def runCalls (cfg : ConfigSnapshot) (draw : ℚ) (d : Direction)
    (st : StreamState) : List CallInput → StreamState
  | [] => st
  | ci :: rest => runCalls cfg draw d (stepState cfg draw d st ci) rest

/-- The transitions a bound record may make (section 4.3.6 / section 3
invariant): either the chosen path and the fallback flag are untouched,
or the single fallback step — from a hardware path that has not yet
fallen back, to Zlib, raising the flag. -/
def PathEvolves (r r' : Record) : Prop :=
  (r'.chosenPath = r.chosenPath ∧ r'.fallbackOccurred = r.fallbackOccurred)
  ∨ (isHardware r.chosenPath = true ∧ r.fallbackOccurred = false
     ∧ r'.chosenPath = ExecutionPath.ZLIB ∧ r'.fallbackOccurred = true)

/-! ## Backend codecs (modelled from the spec)

The three backend codecs are external collaborators ("the software zlib
codec itself; the vendor driver/SDK calls that actually perform IAA/QAT
compression" — section 1, out of scope); no codec source is available.
The spec requires "(a) bit-exact protocol compatibility with the
deflate/inflate bitstream format regardless of which backend produced it"
(section 1): every backend emits a bitstream of one common block format
and every backend decodes that common format.  The model below realises
the common format as a sequence of stored blocks — each block a
final-flag, a payload length and the payload, mirroring deflate's stored
(btype 0) blocks at byte granularity — with one encoder per backend
(they may frame the same data into different block sequences) and the
format's single decode function used by every path. -/

/-- Modelled from the spec: the software zlib encoder emits the whole
input as one final stored block. -/
def zlibCompress (input : List Nat) : List Nat :=
  1 :: input.length :: input

/-- Modelled from the spec: the QAT encoder frames the input into stored
blocks of at most four payload bytes, the last one final — a backend
may split the data into blocks however it likes, the format stays the
same. -/
def qatCompress (input : List Nat) : List Nat :=
  if input.length ≤ 4 then 1 :: input.length :: input
  else 0 :: 4 :: (input.take 4 ++ qatCompress (input.drop 4))
termination_by input.length
decreasing_by simp; omega

/-- Modelled from the spec: the IAA encoder prepends the priming block —
"a synthetic empty block some hardware backends require before real data
to establish internal framing state" (glossary) — as an empty non-final
stored block, then emits the data as one final block. -/
def iaaCompress (input : List Nat) : List Nat :=
  0 :: 0 :: zlibCompress input

/-- Modelled from the spec: the decode function of the common block
format, shared by every backend's decompressor.  It parses stored blocks
in sequence, concatenating their payloads; a final block must end the
stream exactly; a malformed stream decodes to `none`. -/
def inflateBlocks : List Nat → Option (List Nat)
  | [] => none
  | [_] => none
  | bf :: len :: rest =>
    if len ≤ rest.length then
      if bf = 1 then
        if rest.length = len then some (rest.take len) else none
      else
        (inflateBlocks (rest.drop len)).map (fun tail => rest.take len ++ tail)
    else none
termination_by l => l.length
decreasing_by simp; omega

/-- Modelled from the spec: compression through an execution path — each
path runs its backend's encoder; no backend carries an Undefined stream. -/
def compressPath : ExecutionPath → List Nat → Option (List Nat)
  | .ZLIB, input => some (zlibCompress input)
  | .QAT, input => some (qatCompress input)
  | .IAA, input => some (iaaCompress input)
  | .UNDEFINED, _ => none

/-- Modelled from the spec: decompression through an execution path —
every backend decodes the common block format (bit-exact protocol
compatibility regardless of the producer), so each path applies the
format's decode function. -/
def uncompressPath : ExecutionPath → List Nat → Option (List Nat)
  | .UNDEFINED, _ => none
  | _, bytes => inflateBlocks bytes

/-! ## Auxiliary predicate and concrete sample inputs -/

/-- The reachable shapes of a stream state: either no record yet, or a
record created by a successful path selection that has since evolved only
through the permitted transitions. -/
def RecordInv (cfg : ConfigSnapshot) (draw : ℚ) (d : Direction)
    (st : StreamState) : Prop :=
  st.record = none
  ∨ (select d cfg draw ≠ ExecutionPath.UNDEFINED
     ∧ ∃ r, st.record = some r ∧ PathEvolves (initRecord d cfg draw) r)

/-- A snapshot with every backend disabled in both directions. -/
def cfgNone : ConfigSnapshot :=
  { qatEnabled := fun _ => false, iaaEnabled := fun _ => false,
    zlibEnabled := fun _ => false, iaaPercentage := fun _ => 0 }

/-- A snapshot with QAT disabled, IAA enabled at 100%, Zlib enabled. -/
def cfgIaaFull : ConfigSnapshot :=
  { qatEnabled := fun _ => false, iaaEnabled := fun _ => true,
    zlibEnabled := fun _ => true, iaaPercentage := fun _ => 100 }

/-- A snapshot with only Zlib enabled. -/
def cfgZlibOnly : ConfigSnapshot :=
  { qatEnabled := fun _ => false, iaaEnabled := fun _ => false,
    zlibEnabled := fun _ => true, iaaPercentage := fun _ => 50 }

/-- A backend outcome reporting OK with nothing consumed or produced. -/
def stepOkW : BackendStep := { consumed := 0, produced := [], status := .OK }

/-- A processing call consuming three bytes and producing one. -/
def callOkW : CallInput :=
  { input := [1, 2, 3],
    bound := { consumed := 3, produced := [7], status := .OK },
    sw := stepOkW }

/-- The record a Zlib-only compress stream holds after `callOkW`. -/
def recAfterOneW : Record :=
  { direction := .compress, chosenPath := .ZLIB, fallbackOccurred := false,
    bytesIn := 3, bytesOut := 1 }

/-- A compress-direction record bound to IAA with no fallback yet. -/
def recIaaW : Record :=
  { direction := .compress, chosenPath := .IAA, fallbackOccurred := false,
    bytesIn := 0, bytesOut := 0 }

/-- A stream bound to IAA that has already produced one output byte. -/
def stIaaW : StreamState := { record := some recIaaW, output := [9] }

/-- A hardware outcome: two bytes consumed, one produced, then ERROR. -/
def boundErrW : BackendStep :=
  { consumed := 2, produced := [5], status := .ERROR }

/-- A software replay outcome: one byte consumed, one produced, OK. -/
def swOkW : BackendStep := { consumed := 1, produced := [6], status := .OK }

/-! ## Theorems -/

/-- C9: `SetConfig` followed by `GetConfig` returns the value reduced
modulo `2^16` — the backing store is a `uint16_t` array, so out-of-range
and negative values are silently truncated; `SetConfig` performs no range
validation of its own. -/
theorem set_config_get_config_mod_65536 (st : ConfigState)
    (o : ConfigOption) (v : Int) :
    GetConfig (SetConfig st o v) o = v % 65536 := by
  simp only [GetConfig, SetConfig, setCfg, u16, if_pos rfl]
  exact Int.toNat_of_nonneg (Int.emod_nonneg v (by norm_num))

/-- C10: `Log(LOG_NONE, ...)` writes nothing, and in general `Log` emits
output — prefixed `"Error: "` or `"Info: "` — exactly when the level is
not `LOG_NONE` and its numeric value is at least the configured
`LOG_LEVEL`. -/
theorem log_emission_iff_level_enabled (cfgLL : Nat) (level : LogLevel) :
    Log .LOG_NONE cfgLL = none
    ∧ ((Log level cfgLL).isSome = true ↔
        (level ≠ .LOG_NONE ∧ cfgLL ≤ level.toNat))
    ∧ (Log level cfgLL = some "Error: " ↔
        (level = .LOG_ERROR ∧ cfgLL ≤ 2))
    ∧ (Log level cfgLL = some "Info: " ↔
        (level = .LOG_INFO ∧ cfgLL ≤ 1)) := by
  refine ⟨?_, ?_, ?_, ?_⟩
  · simp [Log, LogLevel.toNat]
  · cases level <;> simp [Log, LogLevel.toNat]
  · cases level <;> simp [Log, LogLevel.toNat]
  · cases level <;> simp [Log, LogLevel.toNat]

/-- C2: `LoadConfigFile` on a path that names no existing file returns
`false` and leaves the configuration state exactly at its defaults. -/
theorem load_config_missing_file_leaves_defaults (fs : FileSystem)
    (path : String) (h : fs.file path = none) :
    LoadConfigFile fs path defaultConfigState =
      (false, defaultConfigState) := by
  simp [LoadConfigFile, h]

/-- Witness for C2: a file system without any file at the default
configuration path. -/
theorem load_config_missing_file_leaves_defaults_witness :
    LoadConfigFile emptyFs "/etc/zlib-accel.conf" defaultConfigState =
      (false, defaultConfigState) :=
  load_config_missing_file_leaves_defaults emptyFs "/etc/zlib-accel.conf" rfl

/-- C1 (counterexample evaluation): with a configuration file that stores
every documented key — `iaa_compress_percentage = 30`,
`iaa_uncompress_percentage = 75` — `LoadConfigFile` stores 30 into the
`IAA_UNCOMPRESS_PERCENTAGE` slot (it reads that slot from the key
`"iaa_compress_percentage"`) and 1 into the `IAA_COMPRESS_PERCENTAGE`
slot (read from the key `"use_zlib_uncompress"`, the documented key of
the Zlib uncompress enable flag); no option is ever read from the
documented key `"iaa_uncompress_percentage"`, and the
`USE_ZLIB_UNCOMPRESS` option is read from the upper-case key
`"USE_ZLIB_UNCOMPRESS"` instead of its documented lower-case key: the
`config_names` array is misaligned with the `ConfigOption` enumeration
from `USE_ZLIB_UNCOMPRESS` onward. -/
theorem config_names_percentage_keys_misrouted :
    ((LoadConfigFile percentageFs "/etc/zlib-accel.conf"
        defaultConfigState).2.configs .IAA_UNCOMPRESS_PERCENTAGE = 30)
    ∧ ((LoadConfigFile percentageFs "/etc/zlib-accel.conf"
        defaultConfigState).2.configs .IAA_COMPRESS_PERCENTAGE = 1)
    ∧ lookupKey percentageFile.ints "iaa_uncompress_percentage" = some 75
    ∧ (∀ o : ConfigOption, config_names o ≠ "iaa_uncompress_percentage")
    ∧ config_names .IAA_UNCOMPRESS_PERCENTAGE
        = documented_config_names .IAA_COMPRESS_PERCENTAGE
    ∧ config_names .IAA_COMPRESS_PERCENTAGE
        = documented_config_names .USE_ZLIB_UNCOMPRESS
    ∧ config_names .USE_ZLIB_UNCOMPRESS
        ≠ documented_config_names .USE_ZLIB_UNCOMPRESS := by
  refine ⟨?_, ?_, ?_, ?_, ?_, ?_, ?_⟩ <;> decide

/-- The block-header logger is silent when the level does not reach the
configured threshold. -/
theorem printDeflate_eq_of_filter (level : LogLevel) (cfgLL : Nat)
    (data : List Nat) (len : Nat) (wb : Int)
    (hf : level.toNat < cfgLL) :
    PrintDeflateBlockHeader level cfgLL data len wb = (data, none) := by
  simp [PrintDeflateBlockHeader, hf]

/-- The block-header logger is silent when the buffer does not extend past
the wrapper header. -/
theorem printDeflate_eq_of_short (level : LogLevel) (cfgLL : Nat)
    (data : List Nat) (len : Nat) (wb : Int)
    (hl : ¬ GetHeaderLength (GetCompressedFormat wb) + 1 ≤ len) :
    PrintDeflateBlockHeader level cfgLL data len wb = (data, none) := by
  by_cases hf : level.toNat < cfgLL
  · simp [PrintDeflateBlockHeader, hf]
  · cases level <;> simp [PrintDeflateBlockHeader, hf, hl]

/-- The block-header logger is silent at `LOG_NONE` (the inner `Log`
returns before writing). -/
theorem printDeflate_eq_of_none_level (cfgLL : Nat) (data : List Nat)
    (len : Nat) (wb : Int) :
    PrintDeflateBlockHeader .LOG_NONE cfgLL data len wb = (data, none) := by
  by_cases hf : LogLevel.LOG_NONE.toNat < cfgLL
  · simp [PrintDeflateBlockHeader, hf]
  · by_cases hl : GetHeaderLength (GetCompressedFormat wb) + 1 ≤ len <;>
      simp [PrintDeflateBlockHeader, hf, hl]

/-- When the level passes the filter, is not `LOG_NONE`, and the buffer
extends past the wrapper header, the logger emits the two header fields of
the byte at the header offset. -/
theorem printDeflate_eq_of_long (level : LogLevel) (cfgLL : Nat)
    (data : List Nat) (len : Nat) (wb : Int)
    (hf : ¬ level.toNat < cfgLL) (hn : level ≠ .LOG_NONE)
    (hl : GetHeaderLength (GetCompressedFormat wb) + 1 ≤ len) :
    PrintDeflateBlockHeader level cfgLL data len wb =
      (data,
       some (data.getD (GetHeaderLength (GetCompressedFormat wb)) 0 &&& 1,
             (data.getD (GetHeaderLength (GetCompressedFormat wb)) 0
               &&& 6) >>> 1)) := by
  cases level with
  | LOG_NONE => exact absurd rfl hn
  | LOG_INFO => simp [PrintDeflateBlockHeader, hf, hl]
  | LOG_ERROR => simp [PrintDeflateBlockHeader, hf, hl]

/-- C7: `PrintDeflateBlockHeader` never modifies the buffer, writes
nothing when the buffer length is not strictly greater than the
format-dependent header length, and whatever it logs is exactly the
final-block flag (bit 0) and the block-type field (bits 1–2) of the byte
at the header offset; when the level passes the configured filter and the
buffer is long enough it logs exactly that pair.  The function's result
carries nothing but the unchanged buffer and the logged pair: it has no
effect on control-flow-relevant state. -/
theorem print_deflate_block_header_bits_and_guard (level : LogLevel)
    (cfgLL : Nat) (data : List Nat) (len : Nat) (wb : Int) :
    ((PrintDeflateBlockHeader level cfgLL data len wb).1 = data)
    ∧ (len ≤ GetHeaderLength (GetCompressedFormat wb) →
        (PrintDeflateBlockHeader level cfgLL data len wb).2 = none)
    ∧ (∀ bf bt,
        (PrintDeflateBlockHeader level cfgLL data len wb).2 = some (bf, bt) →
        bf = data.getD (GetHeaderLength (GetCompressedFormat wb)) 0 &&& 1
        ∧ bt = (data.getD (GetHeaderLength (GetCompressedFormat wb)) 0
                 &&& 6) >>> 1
        ∧ GetHeaderLength (GetCompressedFormat wb) < len)
    ∧ (cfgLL ≤ level.toNat → level ≠ .LOG_NONE →
        GetHeaderLength (GetCompressedFormat wb) < len →
        (PrintDeflateBlockHeader level cfgLL data len wb).2 =
          some (data.getD (GetHeaderLength (GetCompressedFormat wb)) 0 &&& 1,
                (data.getD (GetHeaderLength (GetCompressedFormat wb)) 0
                  &&& 6) >>> 1)) := by
  refine ⟨?_, ?_, ?_, ?_⟩
  · by_cases hf : level.toNat < cfgLL
    · rw [printDeflate_eq_of_filter level cfgLL data len wb hf]
    · by_cases hl : GetHeaderLength (GetCompressedFormat wb) + 1 ≤ len
      · cases level
        · rw [printDeflate_eq_of_none_level cfgLL data len wb]
        · rw [printDeflate_eq_of_long _ cfgLL data len wb hf (by simp) hl]
        · rw [printDeflate_eq_of_long _ cfgLL data len wb hf (by simp) hl]
      · rw [printDeflate_eq_of_short level cfgLL data len wb hl]
  · intro h
    rw [printDeflate_eq_of_short level cfgLL data len wb (by omega)]
  · intro bf bt h
    by_cases hf : level.toNat < cfgLL
    · rw [printDeflate_eq_of_filter level cfgLL data len wb hf] at h
      exact absurd h (by simp)
    · by_cases hl : GetHeaderLength (GetCompressedFormat wb) + 1 ≤ len
      · cases level
        · rw [printDeflate_eq_of_none_level cfgLL data len wb] at h
          exact absurd h (by simp)
        · rw [printDeflate_eq_of_long _ cfgLL data len wb hf (by simp) hl]
            at h
          simp only [Option.some.injEq, Prod.mk.injEq] at h
          exact ⟨h.1.symm, h.2.symm, by omega⟩
        · rw [printDeflate_eq_of_long _ cfgLL data len wb hf (by simp) hl]
            at h
          simp only [Option.some.injEq, Prod.mk.injEq] at h
          exact ⟨h.1.symm, h.2.symm, by omega⟩
      · rw [printDeflate_eq_of_short level cfgLL data len wb hl] at h
        exact absurd h (by simp)
  · intro hle hn hlt
    rw [printDeflate_eq_of_long level cfgLL data len wb (by omega) hn
      (by omega)]

/-- Witness for C7: a zlib-wrapped buffer `[0x78, 0x9C, 0x05]` at info
level with `LOG_LEVEL = 1`: the header length is 2 and byte `0x05` holds
`bfinal = 1`, `btype = 2`. -/
theorem print_deflate_block_header_bits_and_guard_witness :
    (PrintDeflateBlockHeader .LOG_INFO 1 [120, 156, 5] 3 15).2 =
      some (1, 2) := by
  have h := (print_deflate_block_header_bits_and_guard
    .LOG_INFO 1 [120, 156, 5] 3 15).2.2.2 (by decide) (by decide) (by decide)
  simpa using h

/-- C3: the path selector honours the fixed priority order — QAT when
enabled takes the whole direction regardless of the draw and the IAA
settings; otherwise with IAA enabled the draw decides against the
percentage threshold (below selects IAA, the remainder Zlib); otherwise
Zlib when enabled; Undefined exactly when no backend is enabled.  With
the percentage at 0 the selector never returns IAA; at 100 with QAT
disabled and IAA enabled it always does. -/
theorem select_priority_percentage_spec (d : Direction)
    (cfg : ConfigSnapshot) (draw : ℚ) (h0 : 0 ≤ draw) (h1 : draw < 1) :
    (cfg.qatEnabled d = true → select d cfg draw = .QAT)
    ∧ (cfg.qatEnabled d = false → cfg.iaaEnabled d = true →
        ((select d cfg draw = .IAA ↔
           draw < (cfg.iaaPercentage d : ℚ) / 100)
         ∧ (¬ draw < (cfg.iaaPercentage d : ℚ) / 100 →
             select d cfg draw = .ZLIB)))
    ∧ (cfg.qatEnabled d = false → cfg.iaaEnabled d = false →
        cfg.zlibEnabled d = true → select d cfg draw = .ZLIB)
    ∧ (select d cfg draw = .UNDEFINED ↔
        (cfg.qatEnabled d = false ∧ cfg.iaaEnabled d = false
         ∧ cfg.zlibEnabled d = false))
    ∧ (cfg.iaaPercentage d = 0 → select d cfg draw ≠ .IAA)
    ∧ (cfg.iaaPercentage d = 100 → cfg.qatEnabled d = false →
        cfg.iaaEnabled d = true → select d cfg draw = .IAA) := by
  refine ⟨?_, ?_, ?_, ?_, ?_, ?_⟩
  · intro hq; simp [select, hq]
  · intro hq hi
    constructor
    · by_cases hd : draw < (cfg.iaaPercentage d : ℚ) / 100 <;>
        simp [select, hq, hi, hd]
    · intro hd; simp [select, hq, hi, hd]
  · intro hq hi hz; simp [select, hq, hi, hz]
  · cases hq : cfg.qatEnabled d <;> cases hi : cfg.iaaEnabled d <;>
      cases hz : cfg.zlibEnabled d <;>
        simp [select, hq, hi, hz] <;>
          by_cases hd : draw < (cfg.iaaPercentage d : ℚ) / 100 <;>
            simp [hd]
  · intro hp
    cases hq : cfg.qatEnabled d <;> cases hi : cfg.iaaEnabled d <;>
      cases hz : cfg.zlibEnabled d <;>
        simp [select, hq, hi, hz, hp] <;> exact h0
  · intro hp hq hi
    have hd : draw < (cfg.iaaPercentage d : ℚ) / 100 := by
      rw [hp]; norm_num; exact h1
    simp [select, hq, hi, hd]

/-- Witness for C3: QAT disabled, IAA enabled at 100%, draw 1/2 — the
selector returns IAA. -/
theorem select_priority_percentage_spec_witness :
    select Direction.compress cfgIaaFull (1 / 2 : ℚ) = .IAA :=
  (select_priority_percentage_spec Direction.compress cfgIaaFull (1 / 2 : ℚ)
    (by norm_num) (by norm_num)).2.2.2.2.2 rfl rfl rfl

/-- `PathEvolves` is reflexive: leaving a record untouched is a permitted
(empty) evolution. -/
theorem pathEvolves_refl (r : Record) : PathEvolves r r :=
  Or.inl ⟨rfl, rfl⟩

/-- `PathEvolves` is transitive: two permitted evolutions compose, the
fallback step happening at most once (Zlib is not a hardware path). -/
theorem pathEvolves_trans {r r' r'' : Record} (h1 : PathEvolves r r')
    (h2 : PathEvolves r' r'') : PathEvolves r r'' := by
  rcases h1 with ⟨hp1, hf1⟩ | ⟨hw1, hf1, hp1, hf1'⟩
  · rcases h2 with ⟨hp2, hf2⟩ | ⟨hw2, hf2, hp2, hf2'⟩
    · exact Or.inl ⟨hp2.trans hp1, hf2.trans hf1⟩
    · rw [hp1] at hw2
      rw [hf1] at hf2
      exact Or.inr ⟨hw2, hf2, hp2, hf2'⟩
  · rcases h2 with ⟨hp2, hf2⟩ | ⟨hw2, hf2, hp2, hf2'⟩
    · exact Or.inr ⟨hw1, hf1, hp2.trans hp1, hf2.trans hf1'⟩
    · rw [hp1] at hw2
      simp [isHardware] at hw2

/-- One dispatcher call on a stream with a bound record keeps a (some)
record that evolves only through the permitted transitions. -/
theorem processCall_record_some (cfg : ConfigSnapshot) (draw : ℚ)
    (d : Direction) (st : StreamState) (input : List Nat)
    (bound sw : BackendStep) (r : Record) (h : st.record = some r) :
    ∃ r', (processCall cfg draw d st input bound sw).state.record = some r'
      ∧ PathEvolves r r' := by
  unfold processCall
  rw [h]
  simp only [Option.getD_some]
  split
  · exact ⟨r, h, pathEvolves_refl r⟩
  · split
    · split
      · next hhw =>
        refine ⟨_, rfl, Or.inr ?_⟩
        simp only [Bool.and_eq_true, Bool.not_eq_true'] at hhw
        exact ⟨hhw.1, hhw.2, rfl, rfl⟩
      · exact ⟨_, rfl, Or.inl ⟨rfl, rfl⟩⟩
    · exact ⟨_, rfl, Or.inl ⟨rfl, rfl⟩⟩

/-- The first dispatcher call on a stream without a record: when the
selection is Undefined the call reports a configuration error and leaves
the state untouched; otherwise it binds a record evolved from the freshly
selected one. -/
theorem processCall_record_none (cfg : ConfigSnapshot) (draw : ℚ)
    (d : Direction) (st : StreamState) (input : List Nat)
    (bound sw : BackendStep) (h : st.record = none) :
    (select d cfg draw = ExecutionPath.UNDEFINED →
      processCall cfg draw d st input bound sw =
        { status := .ConfigError, consumed := 0, state := st })
    ∧ (select d cfg draw ≠ ExecutionPath.UNDEFINED →
      ∃ r', (processCall cfg draw d st input bound sw).state.record = some r'
        ∧ PathEvolves (initRecord d cfg draw) r') := by
  constructor
  · intro hsel
    unfold processCall
    rw [h]
    simp [initRecord, hsel]
  · intro hsel
    unfold processCall
    rw [h]
    simp only [Option.getD_none]
    split
    · next hU => exact absurd hU hsel
    · split
      · split
        · next hhw =>
          refine ⟨_, rfl, Or.inr ?_⟩
          simp only [Bool.and_eq_true, Bool.not_eq_true'] at hhw
          exact ⟨hhw.1, hhw.2, rfl, rfl⟩
        · exact ⟨_, rfl, Or.inl ⟨rfl, rfl⟩⟩
      · exact ⟨_, rfl, Or.inl ⟨rfl, rfl⟩⟩

/-- One dispatcher call preserves the reachable-state invariant. -/
theorem recordInv_step (cfg : ConfigSnapshot) (draw : ℚ) (d : Direction)
    (st : StreamState) (ci : CallInput) (h : RecordInv cfg draw d st) :
    RecordInv cfg draw d (stepState cfg draw d st ci) := by
  rcases h with hnone | ⟨hsel, r, hr, hev⟩
  · by_cases hu : select d cfg draw = ExecutionPath.UNDEFINED
    · left
      have := (processCall_record_none cfg draw d st ci.input ci.bound ci.sw
        hnone).1 hu
      simp [stepState, this, hnone]
    · right
      refine ⟨hu, ?_⟩
      exact (processCall_record_none cfg draw d st ci.input ci.bound ci.sw
        hnone).2 hu
  · right
    refine ⟨hsel, ?_⟩
    obtain ⟨r', hr', hev'⟩ := processCall_record_some cfg draw d st ci.input
      ci.bound ci.sw r hr
    exact ⟨r', hr', pathEvolves_trans hev hev'⟩

/-- A sequence of dispatcher calls preserves the reachable-state
invariant. -/
theorem recordInv_run (cfg : ConfigSnapshot) (draw : ℚ) (d : Direction)
    (calls : List CallInput) (st : StreamState)
    (h : RecordInv cfg draw d st) :
    RecordInv cfg draw d (runCalls cfg draw d st calls) := by
  induction calls generalizing st with
  | nil => exact h
  | cons ci rest ih =>
    exact ih (stepState cfg draw d st ci) (recordInv_step cfg draw d st ci h)

/-- Once a record is bound, any further sequence of calls keeps a bound
record that evolves only through the permitted transitions. -/
theorem record_some_run (cfg : ConfigSnapshot) (draw : ℚ) (d : Direction)
    (more : List CallInput) (st : StreamState) (r : Record)
    (h : st.record = some r) :
    ∃ r', (runCalls cfg draw d st more).record = some r'
      ∧ PathEvolves r r' := by
  induction more generalizing st r with
  | nil => exact ⟨r, h, pathEvolves_refl r⟩
  | cons ci rest ih =>
    obtain ⟨r1, hr1, hev1⟩ := processCall_record_some cfg draw d st ci.input
      ci.bound ci.sw r h
    obtain ⟨r', hr', hev'⟩ := ih (stepState cfg draw d st ci) r1 hr1
    exact ⟨r', hr', pathEvolves_trans hev1 hev'⟩

/-- The hardware paths are exactly QAT and IAA. -/
theorem isHardware_iff (p : ExecutionPath) :
    isHardware p = true ↔ (p = .QAT ∨ p = .IAA) := by
  cases p <;> simp [isHardware]

/-- C4: a stream's `chosen_path` is bound at the first processing call
(whenever the selection is defined, the stream holds a record from the
first call on); every bound record carries a non-Undefined path that is
either the original selection with no fallback, or Zlib after a fallback
from a hardware selection; and over any continuation of calls the bound
path either stays put (flag included) or makes the single permitted
transition from QAT or IAA to Zlib — Zlib being terminal. -/
theorem chosen_path_assigned_once_single_fallback (cfg : ConfigSnapshot)
    (draw : ℚ) (d : Direction) (calls : List CallInput) :
    (calls ≠ [] → select d cfg draw ≠ ExecutionPath.UNDEFINED →
      (runCalls cfg draw d initState calls).record ≠ none)
    ∧ (∀ r, (runCalls cfg draw d initState calls).record = some r →
        r.chosenPath ≠ ExecutionPath.UNDEFINED
        ∧ ((r.chosenPath = select d cfg draw ∧ r.fallbackOccurred = false)
           ∨ ((select d cfg draw = ExecutionPath.QAT
               ∨ select d cfg draw = ExecutionPath.IAA)
              ∧ r.chosenPath = ExecutionPath.ZLIB
              ∧ r.fallbackOccurred = true)))
    ∧ (∀ r more r', (runCalls cfg draw d initState calls).record = some r →
        (runCalls cfg draw d (runCalls cfg draw d initState calls)
          more).record = some r' →
        (((r'.chosenPath = r.chosenPath
           ∧ r'.fallbackOccurred = r.fallbackOccurred)
          ∨ ((r.chosenPath = ExecutionPath.QAT
              ∨ r.chosenPath = ExecutionPath.IAA)
             ∧ r.fallbackOccurred = false
             ∧ r'.chosenPath = ExecutionPath.ZLIB
             ∧ r'.fallbackOccurred = true))
         ∧ (r.chosenPath = ExecutionPath.ZLIB →
            r'.chosenPath = ExecutionPath.ZLIB))) := by
  have hinv : RecordInv cfg draw d (runCalls cfg draw d initState calls) :=
    recordInv_run cfg draw d calls initState (Or.inl rfl)
  refine ⟨?_, ?_, ?_⟩
  · intro hne hsel
    cases calls with
    | nil => exact absurd rfl hne
    | cons ci rest =>
      obtain ⟨r1, hr1, _⟩ := (processCall_record_none cfg draw d initState
        ci.input ci.bound ci.sw rfl).2 hsel
      obtain ⟨r', hr', _⟩ := record_some_run cfg draw d rest
        (stepState cfg draw d initState ci) r1 hr1
      show (runCalls cfg draw d (stepState cfg draw d initState ci)
        rest).record ≠ none
      rw [hr']
      simp
  · intro r hr
    rcases hinv with hnone | ⟨hsel, r0, hr0, hev⟩
    · rw [hr] at hnone
      exact absurd hnone (by simp)
    · have hrr : r = r0 := by
        rw [hr] at hr0
        exact Option.some.inj hr0
      cases hrr
      rcases hev with ⟨hp, hf⟩ | ⟨hw, _, hp, hf⟩
      · refine ⟨?_, Or.inl ⟨hp, hf⟩⟩
        rw [hp]
        exact hsel
      · refine ⟨?_, Or.inr ⟨(isHardware_iff _).mp hw, hp, hf⟩⟩
        rw [hp]
        simp
  · intro r more r' hr hr'
    obtain ⟨r'', hr'', hev⟩ := record_some_run cfg draw d more
      (runCalls cfg draw d initState calls) r hr
    have hrr : r'' = r' := by
      rw [hr'] at hr''
      exact (Option.some.inj hr'').symm
    cases hrr
    constructor
    · rcases hev with ⟨hp, hf⟩ | ⟨hw, hf0, hp, hf⟩
      · exact Or.inl ⟨hp, hf⟩
      · exact Or.inr ⟨(isHardware_iff _).mp hw, hf0, hp, hf⟩
    · intro hz
      rcases hev with ⟨hp, _⟩ | ⟨hw, _, hp, _⟩
      · exact hp.trans hz
      · rw [hz] at hw
        simp [isHardware] at hw

/-- Witness for C4: a Zlib-only snapshot, one successful call of three
input bytes — the bound record's path is not Undefined. -/
theorem chosen_path_assigned_once_single_fallback_witness :
    recAfterOneW.chosenPath ≠ ExecutionPath.UNDEFINED :=
  ((chosen_path_assigned_once_single_fallback cfgZlibOnly 0
    Direction.compress [callOkW]).2.1 recAfterOneW rfl).1

/-- C5: on the first hardware ERROR of a QAT- or IAA-bound record the
dispatcher raises `fallback_occurred`, rebinds the record to Zlib, replays
the software step against the input from the byte offset the failed
hardware attempt consumed (the call's consumed count is the hardware
offset plus what the replay took of the remaining input), and appends the
replay's output after the bytes already produced — prior output is left in
place and nothing is produced twice.  A stream already on Zlib that
reports ERROR is terminal: the error is surfaced, the path and the
fallback flag do not change. -/
theorem hardware_error_fallback_replays_and_preserves_output
    (cfg : ConfigSnapshot) (draw : ℚ) (d : Direction) (st : StreamState)
    (input : List Nat) (bound sw : BackendStep) :
    (∀ r, st.record = some r →
      (r.chosenPath = ExecutionPath.QAT
       ∨ r.chosenPath = ExecutionPath.IAA) →
      r.fallbackOccurred = false → bound.status = StepStatus.ERROR →
      ((processCall cfg draw d st input bound sw).state.record =
        some { direction := r.direction,
               chosenPath := ExecutionPath.ZLIB,
               fallbackOccurred := true,
               bytesIn := r.bytesIn + min bound.consumed input.length
                 + min sw.consumed
                     (input.drop (min bound.consumed input.length)).length,
               bytesOut := r.bytesOut + bound.produced.length
                 + sw.produced.length })
      ∧ (processCall cfg draw d st input bound sw).state.output
          = st.output ++ bound.produced ++ sw.produced
      ∧ (processCall cfg draw d st input bound sw).consumed
          = min bound.consumed input.length
            + min sw.consumed
                (input.drop (min bound.consumed input.length)).length
      ∧ (sw.status = StepStatus.ERROR →
          (processCall cfg draw d st input bound sw).status = CallStatus.Err)
      ∧ (sw.status ≠ StepStatus.ERROR →
          (processCall cfg draw d st input bound sw).status
            = mapStatus sw.status))
    ∧ (∀ r, st.record = some r → r.chosenPath = ExecutionPath.ZLIB →
        bound.status = StepStatus.ERROR →
        (processCall cfg draw d st input bound sw).status = CallStatus.Err
        ∧ (processCall cfg draw d st input bound sw).state.record =
            some { r with
                   bytesIn := r.bytesIn + min bound.consumed input.length,
                   bytesOut := r.bytesOut + bound.produced.length }
        ∧ (processCall cfg draw d st input bound sw).state.output
            = st.output ++ bound.produced) := by
  constructor
  · intro r hrec hhw hfb herr
    have hne : ¬ r.chosenPath = ExecutionPath.UNDEFINED := by
      rcases hhw with h | h <;> simp [h]
    have hcond : (isHardware r.chosenPath && !r.fallbackOccurred) = true := by
      rcases hhw with h | h <;> simp [h, isHardware, hfb]
    unfold processCall
    rw [hrec]
    simp only [Option.getD_some]
    rw [if_neg hne, if_pos herr, if_pos hcond]
    refine ⟨rfl, rfl, rfl, ?_, ?_⟩
    · intro h
      simp only [if_pos h]
    · intro h
      simp only [if_neg h]
  · intro r hrec hz herr
    have hne : ¬ r.chosenPath = ExecutionPath.UNDEFINED := by simp [hz]
    have hcond : ¬ (isHardware r.chosenPath && !r.fallbackOccurred) = true :=
      by simp [hz, isHardware]
    unfold processCall
    rw [hrec]
    simp only [Option.getD_some]
    rw [if_neg hne, if_pos herr, if_neg hcond]
    exact ⟨rfl, rfl, rfl⟩

/-- Witness for C5: an IAA-bound compress record with one output byte
already produced; the hardware consumes two of three input bytes,
produces one byte, then errors; the software replay consumes one more
byte and produces one byte — the output is the prior byte, the hardware
byte and the replay byte, in order, each exactly once. -/
theorem hardware_error_fallback_witness :
    (processCall cfgNone 0 Direction.compress stIaaW [1, 2, 3]
      boundErrW swOkW).state.output = [9, 5, 6] := by
  have h := (hardware_error_fallback_replays_and_preserves_output
    cfgNone 0 Direction.compress stIaaW [1, 2, 3] boundErrW swOkW).1
    recIaaW rfl (Or.inr rfl) rfl rfl
  exact h.2.1

/-- C6: a first processing call whose path selection yields Undefined (no
backend enabled for the direction) reports a configuration error
immediately: zero bytes consumed, no output produced, and no per-stream
record created — the state is exactly what it was. -/
theorem undefined_path_config_error_no_state (cfg : ConfigSnapshot)
    (draw : ℚ) (d : Direction) (st : StreamState) (input : List Nat)
    (bound sw : BackendStep) (hrec : st.record = none)
    (hsel : select d cfg draw = ExecutionPath.UNDEFINED) :
    processCall cfg draw d st input bound sw =
      { status := CallStatus.ConfigError, consumed := 0, state := st } :=
  (processCall_record_none cfg draw d st input bound sw hrec).1 hsel

/-- Witness for C6: no backend enabled — the call on a fresh stream
returns the configuration error and the untouched initial state. -/
theorem undefined_path_config_error_no_state_witness :
    processCall cfgNone 0 Direction.compress initState [1, 2] stepOkW
      stepOkW =
      { status := CallStatus.ConfigError, consumed := 0,
        state := initState } :=
  undefined_path_config_error_no_state cfgNone 0 Direction.compress
    initState [1, 2] stepOkW stepOkW rfl rfl

/-- Decoding a single final stored block yields exactly its payload. -/
theorem inflate_final (l : List Nat) :
    inflateBlocks (1 :: l.length :: l) = some l := by
  simp [inflateBlocks]

/-- An empty non-final stored block (the IAA priming block) is transparent
to the decoder. -/
theorem inflate_empty_block (rest : List Nat) :
    inflateBlocks (0 :: 0 :: rest) = inflateBlocks rest := by
  cases h : inflateBlocks rest <;> simp [inflateBlocks, h]

/-- Decoding a non-final stored block prepends its payload to the decode
of the remaining stream. -/
theorem inflate_block_cons (k : Nat) (payload rest : List Nat)
    (hp : payload.length = k) :
    inflateBlocks (0 :: k :: (payload ++ rest)) =
      (inflateBlocks rest).map (fun t => payload ++ t) := by
  subst hp
  have hle : payload.length ≤ (payload ++ rest).length := by
    simp
  simp [inflateBlocks, hle, List.take_left, List.drop_left]

/-- The Zlib encoder round-trips through the shared decoder. -/
theorem inflate_zlibCompress (input : List Nat) :
    inflateBlocks (zlibCompress input) = some input :=
  inflate_final input

/-- The QAT encoder round-trips through the shared decoder, whatever the
block framing it chose. -/
theorem inflate_qatCompress (input : List Nat) :
    inflateBlocks (qatCompress input) = some input := by
  by_cases h : input.length ≤ 4
  · rw [qatCompress, if_pos h]
    exact inflate_final input
  · rw [qatCompress, if_neg h]
    rw [inflate_block_cons 4 (input.take 4) (qatCompress (input.drop 4))
      (by rw [List.length_take]; omega)]
    rw [inflate_qatCompress (input.drop 4)]
    simp [List.take_append_drop]
termination_by input.length
decreasing_by simp; omega

/-- The IAA encoder — priming block first — round-trips through the shared
decoder. -/
theorem inflate_iaaCompress (input : List Nat) :
    inflateBlocks (iaaCompress input) = some input := by
  unfold iaaCompress
  rw [inflate_empty_block]
  exact inflate_zlibCompress input

/-- C8: compressing any input through any execution path and decompressing
the result through any execution path — the same one or a different one —
yields exactly the original bytes. -/
theorem cross_path_round_trip (p q : ExecutionPath) (input : List Nat)
    (hp : p ≠ ExecutionPath.UNDEFINED) (hq : q ≠ ExecutionPath.UNDEFINED) :
    (compressPath p input).bind (uncompressPath q) = some input := by
  cases p <;> cases q <;>
    first
      | exact absurd rfl hp
      | exact absurd rfl hq
      | (show inflateBlocks (zlibCompress input) = some input
         exact inflate_zlibCompress input)
      | (show inflateBlocks (qatCompress input) = some input
         exact inflate_qatCompress input)
      | (show inflateBlocks (iaaCompress input) = some input
         exact inflate_iaaCompress input)

/-- Witness for C8: six bytes compressed on the QAT path (two blocks) and
decompressed on the IAA path come back intact. -/
theorem cross_path_round_trip_witness :
    (compressPath ExecutionPath.QAT [1, 2, 3, 4, 5, 6]).bind
      (uncompressPath ExecutionPath.IAA) = some [1, 2, 3, 4, 5, 6] :=
  cross_path_round_trip ExecutionPath.QAT ExecutionPath.IAA
    [1, 2, 3, 4, 5, 6] (by simp) (by simp)

end ZlibAccel
